import Mathlib

/-
Verification development for the hierarchical bootstrap resampling engine of
the biometric-study analysis tool (`biod/study/analysis-tool`).

The Python sources embedded here:
  * `bootstrap.py` — `BootstrapResults`, `Bootstrap` (runner, timing),
    `BootstrapFARFlat`, `BootstrapFullFARHierarchy`, `BootstrapFullFRRHierarchy`;
  * `ResultsEval.py` — `DataFrameSetAccess`.

The helper module `fpsutils.py` (`boot_sample`, `DataFrameCountTrieAccess`) and
`experiment.py` (`Experiment.check`) are not among the sources at hand; the
definitions below that stand for them are modelled from the design spec and are
marked as such in their doc comments.
-/

namespace BootstrapSpec

/-- A deterministic model of a pseudo-random source (`numpy.random.Generator`):
an infinite stream of raw natural-number draws together with a cursor giving
the next unconsumed position.  Randomness is modelled by leaving the stream
unconstrained. -/
structure Rng where
  seq : ℕ → ℕ
  pos : ℕ

/-- Modelled from the spec: `fpsutils.boot_sample` (the module `fpsutils.py` is
not among the sources at hand).  Resample-with-replacement of the nonparametric
bootstrap: draw `axis.length` values from `axis`, with repetition allowed, each
draw picking the element at a random-stream index reduced modulo the axis size.
The random source advances by one raw draw per selected value. -/
def bootSample {α : Type} [Inhabited α] (axis : List α) (r : Rng) : List α × Rng :=
  ((List.range axis.length).map fun i => axis.getD (r.seq (r.pos + i) % axis.length) default,
   ⟨r.seq, r.pos + axis.length⟩)

/-- The match decision of one verification attempt
(`Experiment.Decision`: the strings `ACCEPT` / `REJECT`). -/
inductive Decision where
  | accept
  | reject
deriving DecidableEq, Repr

/-- One row of a decision table, keyed by
(EnrollUser, EnrollFinger, VerifyUser, VerifyFinger, VerifySample, Decision)
with the optional group columns. -/
structure DecisionRow where
  enrollUser : ℤ
  enrollFinger : ℤ
  verifyUser : ℤ
  verifyFinger : ℤ
  verifySample : ℤ
  decision : Decision
  enrollGroup : String := ""
  verifyGroup : String := ""
deriving DecidableEq, Repr

/-- The column projection used by `BootstrapFullFARHierarchy._init` for
`fa_set` and `fa_trie` (`fa_set_tuple`): the ordered columns
(Verify_User, Enroll_User, Verify_Finger, Enroll_Finger, Verify_Sample). -/
def faProj (row : DecisionRow) : List ℤ :=
  [row.verifyUser, row.enrollUser, row.verifyFinger, row.enrollFinger, row.verifySample]

/-- Membership query of the FAR membership index
(`fpsutils.DataFrameSetAccess.isin`, identical in behaviour to
`DataFrameSetAccess.isin` of `ResultsEval.py`): the queried tuple is in the set
of rows projected onto `fa_set_tuple`. -/
def faSetIsin (tbl : List DecisionRow) (q : List ℤ) : Bool :=
  decide (q ∈ tbl.map faProj)

/-- Modelled from the spec: `fpsutils.DataFrameCountTrieAccess.isin`
(the module `fpsutils.py` is not among the sources at hand).  The prefix-count
trie answers whether at least one row's leading projected columns match the
partial tuple, i.e. whether the accumulated count along that path is nonzero. -/
def faTrieIsin (tbl : List DecisionRow) (p : List ℤ) : Bool :=
  decide (∃ row ∈ tbl, p = (faProj row).take p.length)

/-- The cache built by `BootstrapFullFARHierarchy._init`: the table backing
`fa_set`/`fa_trie` plus the user/finger/sample axis lists of the experiment. -/
structure FARCache where
  faTable : List DecisionRow
  usersList : List ℤ
  fingersList : List ℤ
  samplesList : List ℤ
deriving DecidableEq

/-- Innermost loop of `BootstrapFullFARHierarchy._sample`: for every drawn
verification sample `a`, the exact 5-tuple is queried against the membership
index and the boolean result is appended to the running `sample` list. -/
def farLoopSample (c : FARCache) (v t fv ft : ℤ) (draws : List ℤ) : List Bool :=
  draws.map fun a => faSetIsin c.faTable [v, t, fv, ft, a]

/-- Depth-4 loop (`for ft in boot_sample(mod_finger_list)`, where
`mod_finger_list = fingers_list`): each enroll-finger candidate is checked
against the trie before the verification samples are drawn; a failing check
skips to the next candidate without descending. -/
def farLoopEnrollFinger (c : FARCache) (v t fv : ℤ) : List ℤ → Rng → List Bool × Rng
  | [], r => ([], r)
  | ft :: rest, r =>
    if faTrieIsin c.faTable [v, t, fv, ft] then
      let aDraws := bootSample c.samplesList r
      let tail := farLoopEnrollFinger c v t fv rest aDraws.2
      (farLoopSample c v t fv ft aDraws.1 ++ tail.1, tail.2)
    else
      farLoopEnrollFinger c v t fv rest r

/-- Depth-3 loop (`for fv in boot_sample(fingers_list)`). -/
def farLoopVerifyFinger (c : FARCache) (v t : ℤ) : List ℤ → Rng → List Bool × Rng
  | [], r => ([], r)
  | fv :: rest, r =>
    if faTrieIsin c.faTable [v, t, fv] then
      let ftDraws := bootSample c.fingersList r
      let inner := farLoopEnrollFinger c v t fv ftDraws.1 ftDraws.2
      let tail := farLoopVerifyFinger c v t rest inner.2
      (inner.1 ++ tail.1, tail.2)
    else
      farLoopVerifyFinger c v t rest r

/-- Depth-2 loop (`for t in boot_sample(user_list)`, the template users). -/
def farLoopTemplateUser (c : FARCache) (v : ℤ) : List ℤ → Rng → List Bool × Rng
  | [], r => ([], r)
  | t :: rest, r =>
    if faTrieIsin c.faTable [v, t] then
      let fvDraws := bootSample c.fingersList r
      let inner := farLoopVerifyFinger c v t fvDraws.1 fvDraws.2
      let tail := farLoopTemplateUser c v rest inner.2
      (inner.1 ++ tail.1, tail.2)
    else
      farLoopTemplateUser c v rest r

/-- Depth-1 loop (`for v in boot_sample(user_list)`, the verify users). -/
def farLoopVerifyUser (c : FARCache) : List ℤ → Rng → List Bool × Rng
  | [], r => ([], r)
  | v :: rest, r =>
    if faTrieIsin c.faTable [v] then
      let tDraws := bootSample c.usersList r
      let inner := farLoopTemplateUser c v tDraws.1 tDraws.2
      let tail := farLoopVerifyUser c rest inner.2
      (inner.1 ++ tail.1, tail.2)
    else
      farLoopVerifyUser c rest r

/-- `BootstrapFullFARHierarchy._sample`: one replicate of the full-FAR-hierarchy
bootstrap.  Draws the verify users, runs the nested hierarchy, and returns
`np.sum(sample)`, i.e. the number of `True` entries of the collected boolean
list, together with the advanced random source. -/
def sampleFAR (c : FARCache) (r : Rng) : ℕ × Rng :=
  let vDraws := bootSample c.usersList r
  let res := farLoopVerifyUser c vDraws.1 vDraws.2
  (res.1.count true, res.2)

/-- Specification mirror of the depth-4 loop that collects the drawn 5-tuples
surviving every prefix check (instead of their membership results). -/
def farSurvEnrollFinger (c : FARCache) (v t fv : ℤ) : List ℤ → Rng → List (List ℤ) × Rng
  | [], r => ([], r)
  | ft :: rest, r =>
    if faTrieIsin c.faTable [v, t, fv, ft] then
      let aDraws := bootSample c.samplesList r
      let tail := farSurvEnrollFinger c v t fv rest aDraws.2
      ((aDraws.1.map fun a => [v, t, fv, ft, a]) ++ tail.1, tail.2)
    else
      farSurvEnrollFinger c v t fv rest r

/-- Specification mirror of the depth-3 loop. -/
def farSurvVerifyFinger (c : FARCache) (v t : ℤ) : List ℤ → Rng → List (List ℤ) × Rng
  | [], r => ([], r)
  | fv :: rest, r =>
    if faTrieIsin c.faTable [v, t, fv] then
      let ftDraws := bootSample c.fingersList r
      let inner := farSurvEnrollFinger c v t fv ftDraws.1 ftDraws.2
      let tail := farSurvVerifyFinger c v t rest inner.2
      (inner.1 ++ tail.1, tail.2)
    else
      farSurvVerifyFinger c v t rest r

/-- Specification mirror of the depth-2 loop. -/
def farSurvTemplateUser (c : FARCache) (v : ℤ) : List ℤ → Rng → List (List ℤ) × Rng
  | [], r => ([], r)
  | t :: rest, r =>
    if faTrieIsin c.faTable [v, t] then
      let fvDraws := bootSample c.fingersList r
      let inner := farSurvVerifyFinger c v t fvDraws.1 fvDraws.2
      let tail := farSurvTemplateUser c v rest inner.2
      (inner.1 ++ tail.1, tail.2)
    else
      farSurvTemplateUser c v rest r

/-- Specification mirror of the depth-1 loop. -/
def farSurvVerifyUser (c : FARCache) : List ℤ → Rng → List (List ℤ) × Rng
  | [], r => ([], r)
  | v :: rest, r =>
    if faTrieIsin c.faTable [v] then
      let tDraws := bootSample c.usersList r
      let inner := farSurvTemplateUser c v tDraws.1 tDraws.2
      let tail := farSurvVerifyUser c rest inner.2
      (inner.1 ++ tail.1, tail.2)
    else
      farSurvVerifyUser c rest r

/-- All 5-tuples drawn by one replicate of the full-FAR-hierarchy sampler that
pass every prefix check, in drawing order, together with the advanced random
source. -/
def farSurvivors (c : FARCache) (r : Rng) : List (List ℤ) × Rng :=
  let vDraws := bootSample c.usersList r
  farSurvVerifyUser c vDraws.1 vDraws.2

theorem count_true_map {α : Type} (p : α → Bool) (l : List α) :
    (l.map p).count true = l.countP p := by
  induction l with
  | nil => rfl
  | cons a l ih =>
    simp only [List.map_cons, List.count_cons, List.countP_cons, ih, beq_iff_eq]

theorem farLoopSample_eq (c : FARCache) (v t fv ft : ℤ) (draws : List ℤ) :
    farLoopSample c v t fv ft draws =
      (draws.map fun a => [v, t, fv, ft, a]).map fun q => faSetIsin c.faTable q := by
  simp [farLoopSample, List.map_map, Function.comp]

theorem farLoopEnrollFinger_eq (c : FARCache) (v t fv : ℤ) :
    ∀ (l : List ℤ) (r : Rng),
      farLoopEnrollFinger c v t fv l r =
        (((farSurvEnrollFinger c v t fv l r).1.map fun q => faSetIsin c.faTable q),
          (farSurvEnrollFinger c v t fv l r).2)
  | [], r => rfl
  | ft' :: rest, r => by
    by_cases h : faTrieIsin c.faTable [v, t, fv, ft'] <;>
      simp [farLoopEnrollFinger, farSurvEnrollFinger, h,
        farLoopEnrollFinger_eq c v t fv rest, farLoopSample_eq]

theorem farLoopVerifyFinger_eq (c : FARCache) (v t : ℤ) :
    ∀ (l : List ℤ) (r : Rng),
      farLoopVerifyFinger c v t l r =
        (((farSurvVerifyFinger c v t l r).1.map fun q => faSetIsin c.faTable q),
          (farSurvVerifyFinger c v t l r).2)
  | [], r => rfl
  | fv :: rest, r => by
    by_cases h : faTrieIsin c.faTable [v, t, fv] <;>
      simp [farLoopVerifyFinger, farSurvVerifyFinger, h,
        farLoopVerifyFinger_eq c v t rest, farLoopEnrollFinger_eq]

theorem farLoopTemplateUser_eq (c : FARCache) (v : ℤ) :
    ∀ (l : List ℤ) (r : Rng),
      farLoopTemplateUser c v l r =
        (((farSurvTemplateUser c v l r).1.map fun q => faSetIsin c.faTable q),
          (farSurvTemplateUser c v l r).2)
  | [], r => rfl
  | t :: rest, r => by
    by_cases h : faTrieIsin c.faTable [v, t] <;>
      simp [farLoopTemplateUser, farSurvTemplateUser, h,
        farLoopTemplateUser_eq c v rest, farLoopVerifyFinger_eq]

theorem farLoopVerifyUser_eq (c : FARCache) :
    ∀ (l : List ℤ) (r : Rng),
      farLoopVerifyUser c l r =
        (((farSurvVerifyUser c l r).1.map fun q => faSetIsin c.faTable q),
          (farSurvVerifyUser c l r).2)
  | [], r => rfl
  | v :: rest, r => by
    by_cases h : faTrieIsin c.faTable [v] <;>
      simp [farLoopVerifyUser, farSurvVerifyUser, h,
        farLoopVerifyUser_eq c rest, farLoopTemplateUser_eq]

/-- Variant innermost loop for comparison: an equivalent sampler that skips the
depth-5 membership query whenever the drawn verify user equals the drawn
template user, directly contributing `false` for such tuples. -/
def farSkipLoopSample (c : FARCache) (v t fv ft : ℤ) (draws : List ℤ) : List Bool :=
  draws.map fun a => if v = t then false else faSetIsin c.faTable [v, t, fv, ft, a]

/-- Depth-4 loop of the skip-self variant sampler. -/
def farSkipEnrollFinger (c : FARCache) (v t fv : ℤ) : List ℤ → Rng → List Bool × Rng
  | [], r => ([], r)
  | ft :: rest, r =>
    if faTrieIsin c.faTable [v, t, fv, ft] then
      let aDraws := bootSample c.samplesList r
      let tail := farSkipEnrollFinger c v t fv rest aDraws.2
      (farSkipLoopSample c v t fv ft aDraws.1 ++ tail.1, tail.2)
    else
      farSkipEnrollFinger c v t fv rest r

/-- Depth-3 loop of the skip-self variant sampler. -/
def farSkipVerifyFinger (c : FARCache) (v t : ℤ) : List ℤ → Rng → List Bool × Rng
  | [], r => ([], r)
  | fv :: rest, r =>
    if faTrieIsin c.faTable [v, t, fv] then
      let ftDraws := bootSample c.fingersList r
      let inner := farSkipEnrollFinger c v t fv ftDraws.1 ftDraws.2
      let tail := farSkipVerifyFinger c v t rest inner.2
      (inner.1 ++ tail.1, tail.2)
    else
      farSkipVerifyFinger c v t rest r

/-- Depth-2 loop of the skip-self variant sampler. -/
def farSkipTemplateUser (c : FARCache) (v : ℤ) : List ℤ → Rng → List Bool × Rng
  | [], r => ([], r)
  | t :: rest, r =>
    if faTrieIsin c.faTable [v, t] then
      let fvDraws := bootSample c.fingersList r
      let inner := farSkipVerifyFinger c v t fvDraws.1 fvDraws.2
      let tail := farSkipTemplateUser c v rest inner.2
      (inner.1 ++ tail.1, tail.2)
    else
      farSkipTemplateUser c v rest r

/-- Depth-1 loop of the skip-self variant sampler. -/
def farSkipVerifyUser (c : FARCache) : List ℤ → Rng → List Bool × Rng
  | [], r => ([], r)
  | v :: rest, r =>
    if faTrieIsin c.faTable [v] then
      let tDraws := bootSample c.usersList r
      let inner := farSkipTemplateUser c v tDraws.1 tDraws.2
      let tail := farSkipVerifyUser c rest inner.2
      (inner.1 ++ tail.1, tail.2)
    else
      farSkipVerifyUser c rest r

/-- One replicate of the skip-self variant sampler: identical to `sampleFAR`
except that self-match tuples (verify user = template user) never reach the
membership index. -/
def sampleFARSkipSelf (c : FARCache) (r : Rng) : ℕ × Rng :=
  let vDraws := bootSample c.usersList r
  let res := farSkipVerifyUser c vDraws.1 vDraws.2
  (res.1.count true, res.2)

theorem faSetIsin_self_eq_false (tbl : List DecisionRow)
    (h : ∀ row ∈ tbl, row.enrollUser ≠ row.verifyUser) (t fv ft a : ℤ) :
    faSetIsin tbl [t, t, fv, ft, a] = false := by
  simp only [faSetIsin, decide_eq_false_iff_not, List.mem_map, not_exists, not_and]
  intro row hrow heq
  simp only [faProj, List.cons.injEq] at heq
  exact h row hrow (heq.2.1.trans heq.1.symm)

theorem farSkipLoopSample_eq (c : FARCache)
    (h : ∀ row ∈ c.faTable, row.enrollUser ≠ row.verifyUser) (v t fv ft : ℤ)
    (draws : List ℤ) :
    farSkipLoopSample c v t fv ft draws = farLoopSample c v t fv ft draws := by
  unfold farSkipLoopSample farLoopSample
  by_cases hvt : v = t
  · subst hvt
    simp [faSetIsin_self_eq_false c.faTable h]
  · simp [hvt]

theorem farSkipEnrollFinger_eq (c : FARCache)
    (h : ∀ row ∈ c.faTable, row.enrollUser ≠ row.verifyUser) (v t fv : ℤ) :
    ∀ (l : List ℤ) (r : Rng),
      farSkipEnrollFinger c v t fv l r = farLoopEnrollFinger c v t fv l r
  | [], r => rfl
  | ft :: rest, r => by
    by_cases hc : faTrieIsin c.faTable [v, t, fv, ft] <;>
      simp [farSkipEnrollFinger, farLoopEnrollFinger, hc,
        farSkipEnrollFinger_eq c h v t fv rest, farSkipLoopSample_eq c h]

theorem farSkipVerifyFinger_eq (c : FARCache)
    (h : ∀ row ∈ c.faTable, row.enrollUser ≠ row.verifyUser) (v t : ℤ) :
    ∀ (l : List ℤ) (r : Rng),
      farSkipVerifyFinger c v t l r = farLoopVerifyFinger c v t l r
  | [], r => rfl
  | fv :: rest, r => by
    by_cases hc : faTrieIsin c.faTable [v, t, fv] <;>
      simp [farSkipVerifyFinger, farLoopVerifyFinger, hc,
        farSkipVerifyFinger_eq c h v t rest, farSkipEnrollFinger_eq c h]

theorem farSkipTemplateUser_eq (c : FARCache)
    (h : ∀ row ∈ c.faTable, row.enrollUser ≠ row.verifyUser) (v : ℤ) :
    ∀ (l : List ℤ) (r : Rng),
      farSkipTemplateUser c v l r = farLoopTemplateUser c v l r
  | [], r => rfl
  | t :: rest, r => by
    by_cases hc : faTrieIsin c.faTable [v, t] <;>
      simp [farSkipTemplateUser, farLoopTemplateUser, hc,
        farSkipTemplateUser_eq c h v rest, farSkipVerifyFinger_eq c h]

theorem farSkipVerifyUser_eq (c : FARCache)
    (h : ∀ row ∈ c.faTable, row.enrollUser ≠ row.verifyUser) :
    ∀ (l : List ℤ) (r : Rng),
      farSkipVerifyUser c l r = farLoopVerifyUser c l r
  | [], r => rfl
  | v :: rest, r => by
    by_cases hc : faTrieIsin c.faTable [v] <;>
      simp [farSkipVerifyUser, farLoopVerifyUser, hc,
        farSkipVerifyUser_eq c h rest, farSkipTemplateUser_eq c h]

/-- The column projection used by `BootstrapFullFRRHierarchy._init`
(`fr_set_tuple`): the ordered columns (Enroll_User, Enroll_Finger, Verify_Sample). -/
def frProj (row : DecisionRow) : List ℤ :=
  [row.enrollUser, row.enrollFinger, row.verifySample]

/-- Membership query of the FRR membership index over `fr_set_tuple`. -/
def frSetIsin (tbl : List DecisionRow) (q : List ℤ) : Bool :=
  decide (q ∈ tbl.map frProj)

/-- Modelled from the spec: the FRR prefix-count trie
(`fpsutils.DataFrameCountTrieAccess` over `fr_set_tuple`). -/
def frTrieIsin (tbl : List DecisionRow) (p : List ℤ) : Bool :=
  decide (∃ row ∈ tbl, p = (frProj row).take p.length)

/-- The cache built by `BootstrapFullFRRHierarchy._init`. -/
structure FRRCache where
  frTable : List DecisionRow
  usersList : List ℤ
  fingersList : List ℤ
  samplesList : List ℤ
deriving DecidableEq

/-- Depth-2 loop of `BootstrapFullFRRHierarchy._sample`
(`for f in boot_sample(fingers_list)`); the innermost sample loop queries the
membership index directly, with no further trie check. -/
def frrLoopFinger (c : FRRCache) (u : ℤ) : List ℤ → Rng → List Bool × Rng
  | [], r => ([], r)
  | f :: rest, r =>
    if frTrieIsin c.frTable [u, f] then
      let sDraws := bootSample c.samplesList r
      let tail := frrLoopFinger c u rest sDraws.2
      ((sDraws.1.map fun s => frSetIsin c.frTable [u, f, s]) ++ tail.1, tail.2)
    else
      frrLoopFinger c u rest r

/-- Depth-1 loop of `BootstrapFullFRRHierarchy._sample`
(`for u in boot_sample(user_list)`). -/
def frrLoopUser (c : FRRCache) : List ℤ → Rng → List Bool × Rng
  | [], r => ([], r)
  | u :: rest, r =>
    if frTrieIsin c.frTable [u] then
      let fDraws := bootSample c.fingersList r
      let inner := frrLoopFinger c u fDraws.1 fDraws.2
      let tail := frrLoopUser c rest inner.2
      (inner.1 ++ tail.1, tail.2)
    else
      frrLoopUser c rest r

/-- `BootstrapFullFRRHierarchy._sample`: one replicate of the full-FRR-hierarchy
bootstrap. -/
def sampleFRR (c : FRRCache) (r : Rng) : ℕ × Rng :=
  let uDraws := bootSample c.usersList r
  let res := frrLoopUser c uDraws.1 uDraws.2
  (res.1.count true, res.2)

/-- `BootstrapFARFlat._init`: the flat per-row outcome array
`far[Decision] == Decision.Accept` over the FAR decisions table. -/
def farBoolList (tbl : List DecisionRow) : List Bool :=
  tbl.map fun row => row.decision == Decision.accept

/-- `BootstrapFARFlat._sample`: one flat replicate, `np.sum` of a single
with-replacement resample of the full outcome array. -/
def sampleFARFlat (bl : List Bool) (r : Rng) : ℕ × Rng :=
  let draws := bootSample bl r
  (draws.1.count true, draws.2)

/-- State-passing translation of one `BootstrapFullFARHierarchy._sample` call:
the method body contains no assignment to `self`, so the cache component of the
post-state is the unchanged cache. -/
def farSampleStep (c : FARCache) (r : Rng) : ℕ × FARCache × Rng :=
  ((sampleFAR c r).1, c, (sampleFAR c r).2)

/-- State-passing translation of one `BootstrapFullFRRHierarchy._sample` call. -/
def frrSampleStep (c : FRRCache) (r : Rng) : ℕ × FRRCache × Rng :=
  ((sampleFRR c r).1, c, (sampleFRR c r).2)

/-- State-passing translation of one `BootstrapFARFlat._sample` call. -/
def flatSampleStep (bl : List Bool) (r : Rng) : ℕ × List Bool × Rng :=
  ((sampleFARFlat bl r).1, bl, (sampleFARFlat bl r).2)

/-- A sequence of `n` full-FAR-hierarchy `_sample` calls threading the cache
and the random source, as the sequential runner performs them. -/
def farRunSeq : ℕ → FARCache → Rng → List ℕ × FARCache × Rng
  | 0, c, r => ([], c, r)
  | Nat.succ n, c, r =>
    let step := farSampleStep c r
    let rest := farRunSeq n step.2.1 step.2.2
    (step.1 :: rest.1, rest.2)

/-- A sequence of `n` full-FRR-hierarchy `_sample` calls threading the state. -/
def frrRunSeq : ℕ → FRRCache → Rng → List ℕ × FRRCache × Rng
  | 0, c, r => ([], c, r)
  | Nat.succ n, c, r =>
    let step := frrSampleStep c r
    let rest := frrRunSeq n step.2.1 step.2.2
    (step.1 :: rest.1, rest.2)

/-- A sequence of `n` flat `_sample` calls threading the state. -/
def flatRunSeq : ℕ → List Bool → Rng → List ℕ × List Bool × Rng
  | 0, bl, r => ([], bl, r)
  | Nat.succ n, bl, r =>
    let step := flatSampleStep bl r
    let rest := flatRunSeq n step.2.1 step.2.2
    (step.1 :: rest.1, rest.2)

/-- The per-replicate-generator parallel strategy
(`Bootstrap.__run_multi_process` with `USE_GLOBAL_SHARING` disabled): the
random source of replicate `i` is `np.random.default_rng(i)` — abstracted as
`seedRng i` — built from the replicate index before the pool dispatch, and
`pool.map(self._sample, rngs)` returns the per-replicate counts in argument
order. -/
def runMultiPerReplicate (sampler : Rng → ℕ) (seedRng : ℕ → Rng) (numSamples : ℕ) :
    List ℕ :=
  (List.range numSamples).map fun i => sampler (seedRng i)

/-- A tabular data frame as `DataFrameSetAccess` of `ResultsEval.py` consumes
it: a list of available column names and the rows, each row a mapping from
column name to integer value. -/
structure Df where
  cols : List String
  rows : List (String → ℤ)

/-- Projection of one row onto an ordered column list
(one tuple of `np.array(table[cols])`). -/
def dfProj (cols : List String) (row : String → ℤ) : List ℤ :=
  cols.map row

/-- `DataFrameSetAccess.__init__` (ResultsEval.py): the cached set
`{tuple(row) for row in np.array(table[cols])}`, as the list of projected
rows (Python-set membership coincides with list membership). -/
def dfSetRows (table : Df) (cols : List String) : List (List ℤ) :=
  table.rows.map (dfProj cols)

/-- `DataFrameSetAccess.isin`: `values in self.set`. -/
def dfIsin (table : Df) (cols : List String) (values : List ℤ) : Bool :=
  decide (values ∈ dfSetRows table cols)

/-- The domain of one column of the table: the values appearing in it. -/
def dfColValues (table : Df) (col : String) : List ℤ :=
  table.rows.map fun row => row col

/-- `BootstrapResults.__init__`: wraps the ordered list of per-replicate
counts. -/
structure BootstrapResults where
  samplesData : List ℤ

/-- `BootstrapResults.samples`. -/
def BootstrapResults.samples (res : BootstrapResults) : List ℤ :=
  res.samplesData

/-- `BootstrapResults.num_samples`: `len(self._samples)`. -/
def BootstrapResults.num_samples (res : BootstrapResults) : ℕ :=
  res.samplesData.length

/-- The linear-interpolation percentile on an already ordered list: with
`h = q/100 * (n-1)`, the value interpolated between the order statistics at
positions `floor h` and `floor h + 1`.  This is the value of the array at the
`q`-th percentile. -/
def sortedPercentileValue (s : List ℤ) (q : ℚ) : ℚ :=
  let n := s.length
  let h : ℚ := q / 100 * ((n : ℚ) - 1)
  let lo : ℕ := (⌊h⌋).toNat
  let x0 : ℚ := (s.getD lo 0 : ℤ)
  let x1 : ℚ := (s.getD (min (lo + 1) (n - 1)) 0 : ℤ)
  x0 + (h - (lo : ℚ)) * (x1 - x0)

/-- `np.percentile(a, q)` with the default linear interpolation method:
sort ascending, then interpolate between the bracketing order statistics. -/
def npPercentile (samples : List ℤ) (q : ℚ) : ℚ :=
  sortedPercentileValue (samples.insertionSort (· ≤ ·)) q

/-- `BootstrapResults.confidence_interval`: the two-sided percentile interval,
`np.percentile(self._samples, [(100 - confidence_percent)/2, 100 - that])`. -/
def BootstrapResults.confidence_interval (res : BootstrapResults)
    (confidencePercent : ℚ) : ℚ × ℚ :=
  let ciPercentLower := (100 - confidencePercent) / 2
  let ciPercentUpper := 100 - ciPercentLower
  (npPercentile res.samplesData ciPercentLower,
   npPercentile res.samplesData ciPercentUpper)

/-- Method-call view of `confidence_interval`: the method reads
`self._samples` and assigns nothing, so the receiver after the call is the
unchanged object. -/
def BootstrapResults.confidenceIntervalCall (res : BootstrapResults)
    (confidencePercent : ℚ) : (ℚ × ℚ) × BootstrapResults :=
  (res.confidence_interval confidencePercent, res)

/-- A decision table together with which of the optional group columns are
present (pandas columns exist per table, not per row; the group fields of a
row are meaningful only when the corresponding column is present). -/
structure DecisionTable where
  rows : List DecisionRow
  hasEnrollGroup : Bool
  hasVerifyGroup : Bool
deriving DecidableEq

/-- Modelled from the spec: the `Experiment` of `experiment.py` (not among the
sources at hand) as far as `check()` consults it — zero or one FAR decision
table and zero or one FRR decision table. -/
structure Experiment where
  farDecisions : Option DecisionTable
  frrDecisions : Option DecisionTable
deriving DecidableEq

/-- The error classes raised by `Experiment.check` (per the error-handling
design: schema error is a `TypeError`, semantic error a `ValueError`). -/
inductive CheckError where
  | schemaError
  | semanticError
  | groupConflictError
deriving DecidableEq, Repr

/-- Group columns of one table are present transactionally: both or neither. -/
def tableGroupsOk (t : DecisionTable) : Bool :=
  t.hasEnrollGroup == t.hasVerifyGroup

/-- Every FAR row is an impostor attempt: `enroll_user != verify_user`. -/
def farRowsOk (t : DecisionTable) : Bool :=
  t.rows.all fun row => row.enrollUser != row.verifyUser

/-- Every FRR row is a genuine attempt: same user and same finger. -/
def frrRowsOk (t : DecisionTable) : Bool :=
  t.rows.all fun row =>
    row.enrollUser == row.verifyUser && row.enrollFinger == row.verifyFinger

/-- The (user, group) pairs scanned from the enroll and verify group columns
of one table, when its group columns are present. -/
def tableUserGroupPairs (t : DecisionTable) : List (ℤ × String) :=
  if t.hasEnrollGroup && t.hasVerifyGroup then
    (t.rows.map fun row => (row.enrollUser, row.enrollGroup)) ++
      (t.rows.map fun row => (row.verifyUser, row.verifyGroup))
  else []

/-- All (user, group) pairs inferred from the experiment's tables. -/
def expUserGroupPairs (e : Experiment) : List (ℤ × String) :=
  (match e.farDecisions with
   | some t => tableUserGroupPairs t
   | none => []) ++
  (match e.frrDecisions with
   | some t => tableUserGroupPairs t
   | none => [])

/-- Group inference disagrees for some user: two scanned pairs assign the same
user two different group labels. -/
def expGroupsConflict (e : Experiment) : Bool :=
  (expUserGroupPairs e).any fun p =>
    (expUserGroupPairs e).any fun q => p.1 == q.1 && p.2 != q.2

/-- Both present tables have their group columns present consistently. -/
def expGroupColsOk (e : Experiment) : Bool :=
  (match e.farDecisions with
   | some t => tableGroupsOk t
   | none => true) &&
  (match e.frrDecisions with
   | some t => tableGroupsOk t
   | none => true)

/-- The FAR table, if present, holds only impostor attempts. -/
def expFarRowsOk (e : Experiment) : Bool :=
  match e.farDecisions with
  | some t => farRowsOk t
  | none => true

/-- The FRR table, if present, holds only genuine attempts. -/
def expFrrRowsOk (e : Experiment) : Bool :=
  match e.frrDecisions with
  | some t => frrRowsOk t
  | none => true

/-- Modelled from the spec: `Experiment.check` (`experiment.py` is not among
the sources at hand).  Fails with a schema error if group columns are
partially present, with a semantic error if the FAR table contains any
genuine-attempt row or the FRR table any impostor-attempt row, and with a
group-conflict error if group inference assigns some user two groups; raising
is its only effect — the tables are not touched. -/
def Experiment.check (e : Experiment) : Except CheckError Unit :=
  if expGroupColsOk e = false then .error .schemaError
  else if expFarRowsOk e = false then .error .semanticError
  else if expFrrRowsOk e = false then .error .semanticError
  else if expGroupsConflict e = true then .error .groupConflictError
  else .ok ()

/-- A deterministic model of the wall clock (`time.time()`): a stream of
readings with a cursor advanced once per call. -/
structure Clock where
  seq : ℕ → ℚ
  pos : ℕ

/-- One `time.time()` call. -/
def Clock.now (c : Clock) : ℚ × Clock :=
  (c.seq c.pos, ⟨c.seq, c.pos + 1⟩)

/-- The per-phase timestamps held by a `Bootstrap` instance
(`_time_init_start` … `_time_samples_end`). -/
structure Timing where
  initStart : ℚ
  initEnd : ℚ
  rngStart : ℚ
  rngEnd : ℚ
  poolStart : ℚ
  poolEnd : ℚ
  samplesStart : ℚ
  samplesEnd : ℚ
deriving DecidableEq, Repr

/-- `Bootstrap.__init__`: records the cache-initialization phase around
`_init` and initializes the six remaining timestamps to `0.0`. -/
def bootstrapInitTiming (clk : Clock) : Timing × Clock :=
  let t0 := clk.now
  let t1 := t0.2.now
  (⟨t0.1, t1.1, 0, 0, 0, 0, 0, 0⟩, t1.2)

/-- Timestamp trace of `Bootstrap.__run_single_process` (sequential strategy):
records the RNG-initialization and sampling phases; the pool-startup
timestamps are not written. -/
def runSingleTiming (tm : Timing) (clk : Clock) : Timing × Clock :=
  let a := clk.now
  let b := a.2.now
  let s0 := b.2.now
  let s1 := s0.2.now
  ({ tm with rngStart := a.1, rngEnd := b.1, samplesStart := s0.1, samplesEnd := s1.1 },
   s1.2)

/-- Timestamp trace of `Bootstrap.__run_multi_process` with
`USE_GLOBAL_SHARING` enabled: records the pool-startup and sampling phases;
the RNG timestamps are not written (each worker seeds its own generator inside
the pool initializer). -/
def runMultiGlobalTiming (tm : Timing) (clk : Clock) : Timing × Clock :=
  let p0 := clk.now
  let p1 := p0.2.now
  let s0 := p1.2.now
  let s1 := s0.2.now
  ({ tm with poolStart := p0.1, poolEnd := p1.1, samplesStart := s0.1, samplesEnd := s1.1 },
   s1.2)

/-- Timestamp trace of `Bootstrap.__run_multi_process` with
`USE_GLOBAL_SHARING` disabled (per-replicate-generator strategy): records the
pool-startup, RNG-initialization and sampling phases, in that order. -/
def runMultiPerRepTiming (tm : Timing) (clk : Clock) : Timing × Clock :=
  let p0 := clk.now
  let p1 := p0.2.now
  let a := p1.2.now
  let b := a.2.now
  let s0 := b.2.now
  let s1 := s0.2.now
  ({ tm with poolStart := p0.1, poolEnd := p1.1, rngStart := a.1, rngEnd := b.1,
             samplesStart := s0.1, samplesEnd := s1.1 },
   s1.2)

/-- `Bootstrap.print_timing`: the four phase durations it reports
(cache init, RNG init, pool startup, sampling). -/
def printTimingDeltas (tm : Timing) : List ℚ :=
  [tm.initEnd - tm.initStart, tm.rngEnd - tm.rngStart,
   tm.poolEnd - tm.poolStart, tm.samplesEnd - tm.samplesStart]

/-- C1: For every experiment whose FAR decision table is non-empty, one
replicate of the full-FAR-hierarchy sampler (`BootstrapFullFARHierarchy._sample`)
draws a full-size with-replacement resample at each of the five nested levels
in the order (verify user, template user, verify finger, enroll finger, verify
sample) — every `bootSample` returns exactly as many draws as its axis holds —
prunes through the prefix-count trie at each level, skipping a failing
candidate without descending, and returns a count equal to the number of drawn
5-tuples that pass every prefix check and are members of the membership
index. -/
theorem C1_full_far_hierarchy_sample (c : FARCache) (r : Rng)
    (_hne : c.faTable ≠ []) :
    (∀ (axis : List ℤ) (rg : Rng), ((bootSample axis rg).1).length = axis.length)
    ∧ sampleFAR c r =
        (((farSurvivors c r).1.countP fun q => faSetIsin c.faTable q),
          (farSurvivors c r).2) := by
  refine ⟨fun axis rg => by simp [bootSample], ?_⟩
  unfold sampleFAR farSurvivors
  simp only [farLoopVerifyUser_eq, count_true_map]

/-- A one-row FAR cache used to instantiate the hierarchy theorems. -/
def c1Cache : FARCache :=
  { faTable := [{ enrollUser := 10001, enrollFinger := 1, verifyUser := 10002,
                  verifyFinger := 1, verifySample := 0, decision := .accept }],
    usersList := [10001, 10002],
    fingersList := [1],
    samplesList := [0] }

/-- A concrete random source whose raw stream is constantly zero. -/
def c1Rng : Rng := ⟨fun _ => 0, 0⟩

/-- Witness for C1 at a concrete one-row cache. -/
theorem C1_witness :
    (c1Cache.faTable ≠ []) ∧
      ((∀ (axis : List ℤ) (rg : Rng), ((bootSample axis rg).1).length = axis.length)
        ∧ sampleFAR c1Cache c1Rng =
            (((farSurvivors c1Cache c1Rng).1.countP fun q => faSetIsin c1Cache.faTable q),
              (farSurvivors c1Cache c1Rng).2)) :=
  ⟨by decide, C1_full_far_hierarchy_sample c1Cache c1Rng (by decide)⟩

/-- C4: When every row backing the FAR membership index is an impostor attempt
(enroll user distinct from verify user), every self-match 5-tuple (verify user
drawn equal to template user) queries as not present, and the replicate count
of the unfiltered sampler equals that of an equivalent sampler that skips the
depth-5 membership query for such tuples. -/
theorem C4_self_matches_contribute_zero (c : FARCache) (r : Rng)
    (h : ∀ row ∈ c.faTable, row.enrollUser ≠ row.verifyUser) :
    (∀ t fv ft a : ℤ, faSetIsin c.faTable [t, t, fv, ft, a] = false)
    ∧ sampleFAR c r = sampleFARSkipSelf c r := by
  refine ⟨faSetIsin_self_eq_false c.faTable h, ?_⟩
  unfold sampleFAR sampleFARSkipSelf
  simp only [farSkipVerifyUser_eq c h]

/-- Witness for C4 at a concrete impostor-only cache. -/
theorem C4_witness :
    (∀ row ∈ c1Cache.faTable, row.enrollUser ≠ row.verifyUser) ∧
      ((∀ t fv ft a : ℤ, faSetIsin c1Cache.faTable [t, t, fv, ft, a] = false)
        ∧ sampleFAR c1Cache c1Rng = sampleFARSkipSelf c1Cache c1Rng) :=
  ⟨by decide, C4_self_matches_contribute_zero c1Cache c1Rng (by decide)⟩

theorem farRunSeq_cache : ∀ (n : ℕ) (c : FARCache) (r : Rng),
    (farRunSeq n c r).2.1 = c
  | 0, _, _ => rfl
  | Nat.succ n, c, r => by
    simp [farRunSeq, farSampleStep, farRunSeq_cache n]

theorem frrRunSeq_cache : ∀ (n : ℕ) (c : FRRCache) (r : Rng),
    (frrRunSeq n c r).2.1 = c
  | 0, _, _ => rfl
  | Nat.succ n, c, r => by
    simp [frrRunSeq, frrSampleStep, frrRunSeq_cache n]

theorem flatRunSeq_cache : ∀ (n : ℕ) (bl : List Bool) (r : Rng),
    (flatRunSeq n bl r).2.1 = bl
  | 0, _, _ => rfl
  | Nat.succ n, bl, r => by
    simp [flatRunSeq, flatSampleStep, flatRunSeq_cache n]

/-- C8: For every concrete strategy, `_sample` does not mutate the cache built
by `_init`: after any number of state-threaded `_sample` calls, the FAR cache
(membership index table, trie table, axis lists), the FRR cache, and the flat
outcome array are identical to their initial state. -/
theorem C8_sample_preserves_cache (n : ℕ) (cf : FARCache) (cr : FRRCache)
    (bl : List Bool) (r1 r2 r3 : Rng) :
    (farRunSeq n cf r1).2.1 = cf
    ∧ (frrRunSeq n cr r2).2.1 = cr
    ∧ (flatRunSeq n bl r3).2.1 = bl :=
  ⟨farRunSeq_cache n cf r1, frrRunSeq_cache n cr r2, flatRunSeq_cache n bl r3⟩

theorem foldl_confidenceIntervalCall (cps : List ℚ) :
    ∀ (res : BootstrapResults),
      cps.foldl (fun r cp => (r.confidenceIntervalCall cp).2) res = res := by
  induction cps with
  | nil => intro res; rfl
  | cons cp cps ih =>
    intro res
    simp only [List.foldl_cons, BootstrapResults.confidenceIntervalCall]
    exact ih res

/-- C10: `BootstrapResults` wraps its constructor argument without copying or
reordering: `samples()` returns exactly the list it was built from,
`num_samples()` its length, and any number of `confidence_interval` calls
leaves `samples()` unchanged. -/
theorem C10_results_accessors (xs : List ℤ) :
    (BootstrapResults.mk xs).samples = xs
    ∧ (BootstrapResults.mk xs).num_samples = xs.length
    ∧ ∀ cps : List ℚ,
        (cps.foldl (fun r cp => (r.confidenceIntervalCall cp).2)
            (BootstrapResults.mk xs)).samples = xs :=
  ⟨rfl, rfl, fun cps => by rw [foldl_confidenceIntervalCall]; rfl⟩

/-- C2: `confidence_interval(confidence_percent)` returns the pair of
percentiles of the replicate counts at levels `(100 - confidence_percent)/2`
and `100 - (100 - confidence_percent)/2`; on an already sorted replicate
array, `confidence_interval(95)` returns the values of that array at the 2.5th
and 97.5th percentiles. -/
theorem C2_confidence_interval_percentiles (xs : List ℤ) (cp : ℚ)
    (hs : List.Sorted (· ≤ ·) xs) :
    (BootstrapResults.mk xs).confidence_interval cp
        = (npPercentile xs ((100 - cp) / 2), npPercentile xs (100 - (100 - cp) / 2))
    ∧ (BootstrapResults.mk xs).confidence_interval 95
        = (sortedPercentileValue xs (5 / 2), sortedPercentileValue xs (195 / 2)) := by
  have hsort : xs.insertionSort (· ≤ ·) = xs := List.Sorted.insertionSort_eq hs
  refine ⟨rfl, ?_⟩
  unfold BootstrapResults.confidence_interval npPercentile
  rw [hsort]
  norm_num

/-- Witness for C2 at a concrete sorted replicate array. -/
theorem C2_witness :
    List.Sorted (· ≤ ·) ([1, 2, 3, 4] : List ℤ)
    ∧ ((BootstrapResults.mk [1, 2, 3, 4]).confidence_interval 90
          = (npPercentile [1, 2, 3, 4] ((100 - 90) / 2),
             npPercentile [1, 2, 3, 4] (100 - (100 - 90) / 2))
      ∧ (BootstrapResults.mk [1, 2, 3, 4]).confidence_interval 95
          = (sortedPercentileValue [1, 2, 3, 4] (5 / 2),
             sortedPercentileValue [1, 2, 3, 4] (195 / 2))) :=
  ⟨by decide, C2_confidence_interval_percentiles [1, 2, 3, 4] 90 (by decide)⟩

/-- C3: The membership index built from a table and an ordered column list
answers `isin(t)` true precisely when the tuple `t`, in that column order,
appears as a row of the table projected onto those columns; a tuple whose
component at some position does not occur in that position's column is never
present. -/
theorem C3_membership_index (table : Df) (cols : List String) (t : List ℤ)
    (i : ℕ) (hi : i < cols.length) :
    (dfIsin table cols t = true ↔ ∃ row ∈ table.rows, dfProj cols row = t)
    ∧ (t.getD i 0 ∉ dfColValues table (cols.getD i "") →
        dfIsin table cols t = false) := by
  constructor
  · simp [dfIsin, dfSetRows, List.mem_map]
  · intro hout
    simp only [dfIsin, decide_eq_false_iff_not, dfSetRows, List.mem_map, not_exists,
      not_and]
    intro row hrow heq
    apply hout
    have hproj : (dfProj cols row).getD i 0 = row (cols.getD i "") := by
      unfold dfProj
      rw [List.getD_eq_getElem _ _ (by simpa using hi), List.getElem_map,
        List.getD_eq_getElem _ _ hi]
    rw [← heq, hproj]
    exact List.mem_map_of_mem (fun row => row (cols.getD i "")) hrow

/-- A concrete two-column table with one row, used to instantiate C3. -/
def c3Table : Df :=
  { cols := ["VerifyUser", "EnrollUser"],
    rows := [fun c => if c = "VerifyUser" then 10002 else 10001] }

/-- Witness for C3 at a concrete table, column list and query tuple. -/
theorem C3_witness :
    (0 < (["VerifyUser", "EnrollUser"] : List String).length)
    ∧ ((dfIsin c3Table ["VerifyUser", "EnrollUser"] [5, 5] = true ↔
          ∃ row ∈ c3Table.rows, dfProj ["VerifyUser", "EnrollUser"] row = [5, 5])
      ∧ ((([5, 5] : List ℤ).getD 0 0 ∉
            dfColValues c3Table ((["VerifyUser", "EnrollUser"] : List String).getD 0 "")) →
          dfIsin c3Table ["VerifyUser", "EnrollUser"] [5, 5] = false)) :=
  ⟨by decide, C3_membership_index c3Table ["VerifyUser", "EnrollUser"] [5, 5] 0 (by decide)⟩

/-- A FAR table whose group columns assign user 10001 the group A. -/
def c5FarTable : DecisionTable :=
  { rows := [{ enrollUser := 10001, enrollFinger := 1, verifyUser := 10002,
               verifyFinger := 3, verifySample := 12, decision := .reject,
               enrollGroup := "A", verifyGroup := "B" }],
    hasEnrollGroup := true, hasVerifyGroup := true }

/-- An FRR table whose group columns assign user 10001 the group B. -/
def c5FrrTable : DecisionTable :=
  { rows := [{ enrollUser := 10001, enrollFinger := 1, verifyUser := 10001,
               verifyFinger := 1, verifySample := 25, decision := .accept,
               enrollGroup := "B", verifyGroup := "B" }],
    hasEnrollGroup := true, hasVerifyGroup := true }

/-- An experiment whose FAR and FRR group inference disagree on user 10001
while every FAR row is an impostor attempt, every FRR row a genuine attempt,
and group columns are present consistently. -/
def c5ConflictExp : Experiment := ⟨some c5FarTable, some c5FrrTable⟩

/-- Counterexample for C5: the three success conditions of the claim hold, yet
`check()` does not succeed — it raises the group-conflict error — so "succeeds
if and only if" those three conditions is false as stated. -/
theorem C5_counterexample :
    expFarRowsOk c5ConflictExp = true
    ∧ expFrrRowsOk c5ConflictExp = true
    ∧ expGroupColsOk c5ConflictExp = true
    ∧ c5ConflictExp.check = Except.error CheckError.groupConflictError
    ∧ ¬ c5ConflictExp.check = Except.ok () := by
  have hcheck : c5ConflictExp.check = Except.error CheckError.groupConflictError := by
    rfl
  refine ⟨by decide, by decide, by decide, hcheck, ?_⟩
  rw [hcheck]
  intro h
  exact Except.noConfusion h

/-- C5 (amended): `check()` succeeds iff every FAR row is an impostor attempt,
every FRR row a genuine attempt, group columns are present consistently, and
group inference assigns no user two distinct groups; partial group columns
raise the schema error, wrong-table rows the semantic error, and a group
inference disagreement the group-conflict error.  The modelled `check` is
pure, so it has no side effect on the tables. -/
theorem C5_check_characterization (e : Experiment) :
    ((e.check = Except.ok ()) ↔
      (expGroupColsOk e = true ∧ expFarRowsOk e = true ∧ expFrrRowsOk e = true
        ∧ expGroupsConflict e = false))
    ∧ ((e.check = Except.error CheckError.schemaError) ↔ expGroupColsOk e = false)
    ∧ ((e.check = Except.error CheckError.semanticError) ↔
        (expGroupColsOk e = true
          ∧ (expFarRowsOk e = false ∨ expFrrRowsOk e = false)))
    ∧ ((e.check = Except.error CheckError.groupConflictError) ↔
        (expGroupColsOk e = true ∧ expFarRowsOk e = true ∧ expFrrRowsOk e = true
          ∧ expGroupsConflict e = true)) := by
  unfold Experiment.check
  rcases h1 : expGroupColsOk e <;> rcases h2 : expFarRowsOk e <;>
    rcases h3 : expFrrRowsOk e <;> rcases h4 : expGroupsConflict e <;>
      simp [h1, h2, h3, h4]

theorem count_true_getD_six (l : List ℕ) (h : ∀ i ∈ l, i < 6) :
    ((l.map fun i =>
        [false, false, true, false, false, false].getD i false).count true)
      = l.count 2 := by
  induction l with
  | nil => rfl
  | cons i l ih =>
    have hi : i < 6 := h i (List.mem_cons_self i l)
    have hrest : ∀ j ∈ l, j < 6 := fun j hj => h j (List.mem_cons_of_mem i hj)
    interval_cases i <;>
      (rw [List.map_cons, List.count_cons, List.count_cons, ih hrest]; simp)

/-- The FAR decision table of the concrete flat-strategy scenario: 2 users,
1 finger, 3 samples, every impostor attempt REJECT except exactly one ACCEPT
at (enroll user 10001, enroll finger 1, verify user 10002, verify finger 1,
verify sample 2), which sits at row index 2. -/
def flatSpecTable : List DecisionRow :=
  [{ enrollUser := 10001, enrollFinger := 1, verifyUser := 10002,
     verifyFinger := 1, verifySample := 0, decision := .reject },
   { enrollUser := 10001, enrollFinger := 1, verifyUser := 10002,
     verifyFinger := 1, verifySample := 1, decision := .reject },
   { enrollUser := 10001, enrollFinger := 1, verifyUser := 10002,
     verifyFinger := 1, verifySample := 2, decision := .accept },
   { enrollUser := 10002, enrollFinger := 1, verifyUser := 10001,
     verifyFinger := 1, verifySample := 0, decision := .reject },
   { enrollUser := 10002, enrollFinger := 1, verifyUser := 10001,
     verifyFinger := 1, verifySample := 1, decision := .reject },
   { enrollUser := 10002, enrollFinger := 1, verifyUser := 10001,
     verifyFinger := 1, verifySample := 2, decision := .reject }]

/-- C6: The flat FAR strategy computes one replicate as the sum of the boolean
accept outcomes of a single full-size with-replacement resample of the per-row
outcome array; on the concrete 2-user, 1-finger, 3-sample table with exactly
one ACCEPT row, a replicate whose random source draws the ACCEPT row `k` times
returns exactly `k`. -/
theorem C6_flat_far_replicate (bl : List Bool) (rg : Rng) (r : Rng) (k : ℕ)
    (hk : (((List.range 6).map fun i => r.seq (r.pos + i) % 6).count 2) = k) :
    (((bootSample bl rg).1.length = bl.length)
      ∧ (sampleFARFlat bl rg).1 = (bootSample bl rg).1.count true)
    ∧ (sampleFARFlat (farBoolList flatSpecTable) r).1 = k := by
  refine ⟨⟨by simp [bootSample], rfl⟩, ?_⟩
  have hbl : farBoolList flatSpecTable = [false, false, true, false, false, false] :=
    rfl
  calc (sampleFARFlat (farBoolList flatSpecTable) r).1
      = ((List.range 6).map fun i =>
          [false, false, true, false, false, false].getD (r.seq (r.pos + i) % 6)
            false).count true := by
        rw [hbl]; rfl
    _ = (((List.range 6).map fun i => r.seq (r.pos + i) % 6).map fun j =>
          [false, false, true, false, false, false].getD j false).count true := by
        rw [List.map_map]; rfl
    _ = ((List.range 6).map fun i => r.seq (r.pos + i) % 6).count 2 := by
        apply count_true_getD_six
        intro j hj
        simp only [List.mem_map] at hj
        obtain ⟨i, _, rfl⟩ := hj
        exact Nat.mod_lt _ (by norm_num)
    _ = k := hk

/-- A concrete random source drawing raw value 2 twice, then 0. -/
def c6Rng : Rng := ⟨fun i => if i < 2 then 2 else 0, 0⟩

/-- Witness for C6: the concrete source draws the ACCEPT row exactly twice and
the flat replicate returns 2. -/
theorem C6_witness :
    ((((List.range 6).map fun i => c6Rng.seq (c6Rng.pos + i) % 6).count 2) = 2)
    ∧ ((((bootSample ([true] : List Bool) c6Rng).1.length
            = ([true] : List Bool).length)
        ∧ (sampleFARFlat [true] c6Rng).1
            = (bootSample ([true] : List Bool) c6Rng).1.count true)
      ∧ (sampleFARFlat (farBoolList flatSpecTable) c6Rng).1 = 2) :=
  ⟨by decide, C6_flat_far_replicate [true] c6Rng c6Rng 2 (by decide)⟩

/-- C7: Under the per-replicate-generator strategy, replicate `i` is computed
from the random source seeded by `i` for every `i` below the replicate count,
and any two runs with the same sampler (identical engine cache), the same
seeding and the same replicate count produce identical replicate-count
sequences. -/
theorem C7_per_replicate_reproducibility (sampler : Rng → ℕ) (seedRng : ℕ → Rng)
    (n i : ℕ) (hi : i < n) (run1 run2 : List ℕ)
    (h1 : run1 = runMultiPerReplicate sampler seedRng n)
    (h2 : run2 = runMultiPerReplicate sampler seedRng n) :
    run1.length = n
    ∧ run1.getD i 0 = sampler (seedRng i)
    ∧ run1 = run2 := by
  subst h1 h2
  refine ⟨by simp [runMultiPerReplicate], ?_, rfl⟩
  unfold runMultiPerReplicate
  rw [List.getD_eq_getElem _ _ (by simpa using hi)]
  simp

/-- Witness for C7 at a concrete sampler, seeding and replicate count. -/
theorem C7_witness :
    ((1 < 3)
      ∧ ((runMultiPerReplicate (fun r => r.seq 0) (fun i => ⟨fun _ => i, 0⟩) 3)
          = runMultiPerReplicate (fun r => r.seq 0) (fun i => ⟨fun _ => i, 0⟩) 3))
    ∧ ((runMultiPerReplicate (fun r => r.seq 0) (fun i => ⟨fun _ => i, 0⟩) 3).length = 3
      ∧ (runMultiPerReplicate (fun r => r.seq 0) (fun i => ⟨fun _ => i, 0⟩) 3).getD 1 0
          = (fun (r : Rng) => r.seq 0) ((fun (i : ℕ) => (⟨fun _ => i, 0⟩ : Rng)) 1)
      ∧ runMultiPerReplicate (fun r => r.seq 0) (fun i => ⟨fun _ => i, 0⟩) 3
          = runMultiPerReplicate (fun r => r.seq 0) (fun i => ⟨fun _ => i, 0⟩) 3) :=
  ⟨⟨by decide, rfl⟩,
    C7_per_replicate_reproducibility (fun r => r.seq 0) (fun i => ⟨fun _ => i, 0⟩)
      3 1 (by decide) _ _ rfl rfl⟩

/-- A concrete strictly positive clock: the n-th `time.time()` call returns
`n + 1`. -/
def c9Clock : Clock := ⟨fun n => (n : ℚ) + 1, 0⟩

/-- The timestamps after `Bootstrap.__init__` under the concrete clock. -/
def c9InitTiming : Timing := (bootstrapInitTiming c9Clock).1

/-- The clock as `Bootstrap.__init__` leaves it. -/
def c9ClockAfterInit : Clock := (bootstrapInitTiming c9Clock).2

/-- The timestamps after a sequential run under the concrete clock. -/
def c9TimingSingle : Timing := (runSingleTiming c9InitTiming c9ClockAfterInit).1

/-- The timestamps after a global-sharing parallel run under the concrete
clock. -/
def c9TimingGlobal : Timing := (runMultiGlobalTiming c9InitTiming c9ClockAfterInit).1

/-- Counterexample for C9: under a clock whose readings are all nonzero, a
sequential run leaves both worker-pool-startup timestamps at their initial 0 —
that phase is never recorded — and a global-sharing run likewise leaves both
RNG-initialization timestamps at 0, while the phases that are recorded carry
the clock's (nonzero) readings. -/
theorem C9_counterexample :
    c9TimingSingle.poolStart = 0 ∧ c9TimingSingle.poolEnd = 0
    ∧ c9TimingGlobal.rngStart = 0 ∧ c9TimingGlobal.rngEnd = 0
    ∧ c9TimingSingle.samplesEnd = 6 ∧ c9TimingGlobal.samplesEnd = 6 := by
  refine ⟨rfl, rfl, rfl, rfl, ?_, ?_⟩ <;> norm_num [c9TimingSingle, c9TimingGlobal,
    c9InitTiming, c9ClockAfterInit, runSingleTiming, runMultiGlobalTiming,
    bootstrapInitTiming, Clock.now, c9Clock]

/-- C9 (amended): cache-initialization timestamps are recorded at construction;
a sequential run records the RNG-initialization and sampling phases and leaves
the pool-startup timestamps at 0; a global-sharing parallel run records the
pool-startup and sampling phases and leaves the RNG timestamps at 0; a
per-replicate-generator parallel run records pool startup, then RNG
initialization, then sampling; and `print_timing` always reports the four
phase deltas, with 0 for an unrecorded phase. -/
theorem C9_timing_phases (clk : Clock) :
    (runSingleTiming (bootstrapInitTiming clk).1 (bootstrapInitTiming clk).2).1
      = ⟨clk.seq clk.pos, clk.seq (clk.pos + 1), clk.seq (clk.pos + 2),
         clk.seq (clk.pos + 3), 0, 0, clk.seq (clk.pos + 4), clk.seq (clk.pos + 5)⟩
    ∧ (runMultiGlobalTiming (bootstrapInitTiming clk).1 (bootstrapInitTiming clk).2).1
      = ⟨clk.seq clk.pos, clk.seq (clk.pos + 1), 0, 0, clk.seq (clk.pos + 2),
         clk.seq (clk.pos + 3), clk.seq (clk.pos + 4), clk.seq (clk.pos + 5)⟩
    ∧ (runMultiPerRepTiming (bootstrapInitTiming clk).1 (bootstrapInitTiming clk).2).1
      = ⟨clk.seq clk.pos, clk.seq (clk.pos + 1), clk.seq (clk.pos + 4),
         clk.seq (clk.pos + 5), clk.seq (clk.pos + 2), clk.seq (clk.pos + 3),
         clk.seq (clk.pos + 6), clk.seq (clk.pos + 7)⟩
    ∧ printTimingDeltas
        (runSingleTiming (bootstrapInitTiming clk).1 (bootstrapInitTiming clk).2).1
      = [clk.seq (clk.pos + 1) - clk.seq clk.pos,
         clk.seq (clk.pos + 3) - clk.seq (clk.pos + 2), 0,
         clk.seq (clk.pos + 5) - clk.seq (clk.pos + 4)] := by
  refine ⟨rfl, rfl, rfl, ?_⟩
  simp [printTimingDeltas, runSingleTiming, bootstrapInitTiming, Clock.now]

end BootstrapSpec
